import Mathlib

/-!
Verification development for the data-engineering ETL pipeline
(Bronze / Silver / Gold medallion layers).

Shallow embedding conventions:
* A pandas numeric cell is `Option ℚ`: `none` models NaN/NaT/null, `some q`
  a floating-point number.  Every claim checked here evaluates the code only
  at values where float arithmetic is exact, so ℚ is a faithful carrier.
* A `DataFrame` is an ordered association list of named columns.
* In-place pandas mutation is modelled by explicit state passing; `datetime.now()`
  and `datetime.today()` become explicit parameters.
* Fallible code (Python exceptions) returns `Except String`.
-/

namespace ETL

/-- A pandas cell of a numeric column: `none` is NaN / null. -/
abbrev Cell := Option ℚ

/-- A pandas DataFrame restricted to its numeric/nullable columns:
ordered list of (column name, column cells). -/
abbrev DataFrame := List (String × List Cell)

/-- `df.columns`. -/
def dfColumns (df : DataFrame) : List String := df.map Prod.fst

/-- `df[col]`: the first column with the given name, if present. -/
def getCol (df : DataFrame) (c : String) : Option (List Cell) := df.lookup c

/-- `len(df)`: number of rows (length of the first column; 0 for no columns). -/
def dfLen (df : DataFrame) : Nat :=
  match df with
  | [] => 0
  | p :: _ => p.2.length

/-- Well-formedness: all columns have the common row count (always true of a
real pandas DataFrame, which cannot be ragged). -/
def dfWf (df : DataFrame) : Bool := df.all (fun p => p.2.length == dfLen df)

/-- `df[col] = cells`: overwrite the column if it exists, else append it. -/
def setCol (df : DataFrame) (c : String) (cells : List Cell) : DataFrame :=
  if (df.lookup c).isSome then
    df.map (fun p => if p.1 = c then (p.1, cells) else p)
  else df ++ [(c, cells)]

/-! ### pandas Series operations (skipna semantics) -/

/-- The non-null values of a series. -/
def seriesVals (l : List Cell) : List ℚ := l.filterMap id

/-- `Series.sum()`: sums the non-null values; an empty or all-null series
sums to 0. -/
def seriesSum (l : List Cell) : ℚ := (seriesVals l).sum

/-- `Series.mean()`: mean of the non-null values, NaN when there are none. -/
def seriesMean (l : List Cell) : Cell :=
  let v := seriesVals l
  if v.isEmpty then none else some (v.sum / v.length)

/-- `Series.max()`: maximum of the non-null values, NaN when there are none. -/
def seriesMax (l : List Cell) : Cell :=
  match seriesVals l with
  | [] => none
  | v :: vs => some (vs.foldl max v)

/-- `Series.min()`: minimum of the non-null values, NaN when there are none. -/
def seriesMin (l : List Cell) : Cell :=
  match seriesVals l with
  | [] => none
  | v :: vs => some (vs.foldl min v)

/-- `Series.cumsum()`: running sum that skips (and preserves) NaN cells. -/
def cumsumAux (acc : ℚ) : List Cell → List Cell
  | [] => []
  | none :: rest => none :: cumsumAux acc rest
  | some v :: rest => some (acc + v) :: cumsumAux (acc + v) rest

/-- `Series.cumsum()` from a zero accumulator. -/
def cumsum (l : List Cell) : List Cell := cumsumAux 0 l

/-- `Series.rolling(w, min_periods=1).mean()`, one step: `seen` holds the
already-consumed cells most-recent-first, so the window at each position is
`take w` of it.  The mean skips NaN; an all-NaN window yields NaN. -/
def rollingMeanAux (w : Nat) (seen : List Cell) : List Cell → List Cell
  | [] => []
  | c :: rest =>
      let seen2 := c :: seen
      let vals := seriesVals (seen2.take w)
      let out : Cell := if vals.isEmpty then none else some (vals.sum / vals.length)
      out :: rollingMeanAux w seen2 rest

/-- `Series.rolling(w, min_periods=1).mean()`. -/
def rollingMean (w : Nat) (l : List Cell) : List Cell := rollingMeanAux w [] l

/-- Row `i` of the subset of columns named in `cols` (the groupby key of row
`i`); `none` entries stand for NaN key cells. -/
def rowKey (df : DataFrame) (cols : List String) (i : Nat) : List Cell :=
  cols.map (fun c => ((getCol df c).getD []).getD i none)

/-! ### utils/metrics.py -/

/-- `total(df, column)`: column sum, or `0.0` when the column is absent
(a pandas sum over an empty or all-NaN column is already 0). -/
def total (df : DataFrame) (column : String) : ℚ :=
  if column ∈ dfColumns df then seriesSum ((getCol df column).getD [])
  else 0

/-- `mean(df, column)`: column mean when the column is present and the frame
is non-empty, else `0.0`. -/
def mean (df : DataFrame) (column : String) : Cell :=
  if column ∈ dfColumns df ∧ 0 < dfLen df then seriesMean ((getCol df column).getD [])
  else some 0

/-- `maximum(df, column)`: column max when present and non-empty, else `0.0`. -/
def maximum (df : DataFrame) (column : String) : Cell :=
  if column ∈ dfColumns df ∧ 0 < dfLen df then seriesMax ((getCol df column).getD [])
  else some 0

/-- `minimum(df, column)`: column min when present and non-empty, else `0.0`. -/
def minimum (df : DataFrame) (column : String) : Cell :=
  if column ∈ dfColumns df ∧ 0 < dfLen df then seriesMin ((getCol df column).getD [])
  else some 0

/-- Grouped cumulative sum at row `i`: pandas `groupby(gb)[col].cumsum()`
sums the non-NaN values at positions `j ≤ i` sharing the group key of row `i`;
rows whose key contains NaN are dropped from every group (NaN result), and a
NaN value stays NaN. -/
def groupedCumsumAt (df : DataFrame) (gb : List String) (vals : List Cell) (i : Nat) : Cell :=
  if (rowKey df gb i).any Option.isNone then none
  else
    match vals.getD i none with
    | none => none
    | some _ =>
        some (seriesVals (((List.range (i + 1)).filter
          (fun j => rowKey df gb j = rowKey df gb i)).map (fun j => vals.getD j none))).sum

/-- `cumulative(df, column, group_by)`: a column of `[0]*len(df)` when the
column is absent; grouped running sum when `group_by` is truthy (a non-empty
list — Python `if group_by:` treats `None` and `[]` alike); plain `cumsum`
otherwise. -/
def cumulative (df : DataFrame) (column : String) (group_by : List String) : List Cell :=
  if column ∉ dfColumns df then List.replicate (dfLen df) (some 0)
  else
    let vals := (getCol df column).getD []
    if group_by.isEmpty then cumsum vals
    else (List.range vals.length).map (groupedCumsumAt df group_by vals)

/-- Grouped rolling mean at row `i`: the window is the last `w` positions
`j ≤ i` in the group of row `i`; the mean skips NaN values (min-periods-1). -/
def groupedRollingAt (df : DataFrame) (gb : List String) (vals : List Cell) (w : Nat) (i : Nat) : Cell :=
  if (rowKey df gb i).any Option.isNone then none
  else
    let window := (((List.range (i + 1)).filter
      (fun j => rowKey df gb j = rowKey df gb i)).reverse.take w).map (fun j => vals.getD j none)
    let v := seriesVals window
    if v.isEmpty then none else some (v.sum / v.length)

/-- `rolling_average(df, column, window, group_by)`: `[0]*len(df)` when the
column is absent; grouped rolling mean when `group_by` is truthy; plain
rolling mean with `min_periods=1` otherwise. -/
def rolling_average (df : DataFrame) (column : String) (window : Nat) (group_by : List String) : List Cell :=
  if column ∉ dfColumns df then List.replicate (dfLen df) (some 0)
  else
    let vals := (getCol df column).getD []
    if group_by.isEmpty then rollingMean window vals
    else (List.range vals.length).map (fun i => groupedRollingAt df group_by vals window i)

/-- `series.iloc[-1]`: last element, or an `IndexError` on an empty series. -/
def ilocLast : List Cell → Except String Cell
  | [] => Except.error "IndexError: single positional indexer is out-of-bounds"
  | c :: rest => Except.ok ((c :: rest).getLast (by simp))

/-- One iteration of the `calculate_kpis` loop over `Sales/Quantity/Stock`:
the five per-column KPI entries, or an `IndexError` from `.iloc[-1]` when the
column is present but the frame has no rows. -/
def kpiBlock (df : DataFrame) (col : String) : Except String (List (String × Cell)) := do
  if col ∈ dfColumns df then
    let c ← ilocLast (cumulative df col [])
    pure [("total_" ++ col.toLower, some (total df col)),
          ("avg_" ++ col.toLower, mean df col),
          ("max_" ++ col.toLower, maximum df col),
          ("min_" ++ col.toLower, minimum df col),
          ("cumulative_" ++ col.toLower, c)]
  else
    pure []

/-- One iteration of the `calculate_kpis` rolling loop over `Sales/Quantity`. -/
def rollBlock (df : DataFrame) (col : String) : Except String (List (String × Cell)) := do
  if col ∈ dfColumns df then
    let r ← ilocLast (rolling_average df col 3 [])
    pure [("rolling_avg_" ++ col.toLower, r)]
  else
    pure []

/-- `calculate_kpis(df)`: the KPI dictionary in insertion order, or the first
uncaught exception raised while building it. -/
def calculate_kpis (df : DataFrame) : Except String (List (String × Cell)) := do
  let a ← kpiBlock df "Sales"
  let b ← kpiBlock df "Quantity"
  let c ← kpiBlock df "Stock"
  let d ← rollBlock df "Sales"
  let e ← rollBlock df "Quantity"
  pure (a ++ b ++ c ++ d ++ e)

/-! ### utils/data_quality.py -/

/-- Python `round(x, 4)`.  Modelled with the rounding of ℚ; Python rounds the
underlying float half-to-even, which agrees except at exact half-way points of
the 4th decimal (never hit by the inputs considered here). -/
def round4 (q : ℚ) : ℚ := (round (q * 10000) : ℤ) / 10000

/-- `series.isna().mean()`: the null fraction of a column, NaN for a column of
length 0 (pandas mean of an empty boolean series). -/
def nullFrac (l : List Cell) : Cell :=
  if l.isEmpty then none
  else some ((l.countP Option.isNone : ℚ) / l.length)

/-- `validate_nulls(df, threshold)`: every column whose null ratio strictly
exceeds the threshold, mapped to the ratio rounded to 4 decimals, in column
order.  A NaN ratio (empty frame) compares False against the threshold.
Column names of a real frame are distinct, so iterating the pairs agrees with
the `df[col]` lookups of the source. -/
def validate_nulls (df : DataFrame) (threshold : ℚ) : List (String × ℚ) :=
  df.filterMap (fun p =>
    match nullFrac p.2 with
    | none => none
    | some r => if threshold < r then some (p.1, round4 r) else none)

/-- Row `i` of the frame as a record (column name, cell), NaN-padded past the
end like an out-of-range index never is in a well-formed frame. -/
def rowAt (df : DataFrame) (i : Nat) : List (String × Cell) :=
  df.map (fun p => (p.1, p.2.getD i none))

/-- Row `i` restricted to the columns of `subset`. -/
def rowAtSub (df : DataFrame) (subset : List String) (i : Nat) : List (String × Cell) :=
  subset.map (fun c => (c, ((getCol df c).getD []).getD i none))

/-- `df.duplicated(subset)` at row `i` (keep-first): a strictly earlier row
agrees on the compared columns.  pandas treats NaN cells as equal for
duplicate detection, as structural equality of `Option` does here. -/
def duplicatedAt (df : DataFrame) (subset : Option (List String)) (i : Nat) : Bool :=
  let key := fun j => match subset with
    | none => rowAt df j
    | some s => rowAtSub df s j
  (List.range i).any (fun j => decide (key j = key i))

/-- The report built by `validate_duplicates` when duplicates exist. -/
structure DupReport where
  num_duplicates : Nat
  sample_rows : List (List (String × Cell))
deriving DecidableEq, Repr

/-- `validate_duplicates(df, subset)`: `none` models the empty (falsy) dict,
otherwise the duplicate count and the first 5 duplicated rows. -/
def validate_duplicates (df : DataFrame) (subset : Option (List String)) : Option DupReport :=
  let idx := List.range (dfLen df)
  let dups := idx.filter (fun i => duplicatedAt df subset i)
  if dups.isEmpty then none
  else some { num_duplicates := dups.length
              sample_rows := (dups.take 5).map (rowAt df) }

/-- One declared range: (column, optional min, optional max); a missing bound
defaults to minus/plus infinity, against which no comparison ever counts. -/
abbrev RangeSpec := List (String × Option ℚ × Option ℚ)

/-- Violation count of `series < bound` / `series > bound`; NaN cells compare
False and are never counted; `none` is the infinite default bound. -/
def countBelow (cells : List Cell) (lo : Option ℚ) : Nat :=
  match lo with
  | none => 0
  | some m => cells.countP (fun c => match c with | some v => decide (v < m) | none => false)

/-- Count of cells strictly above the optional max bound. -/
def countAbove (cells : List Cell) (hi : Option ℚ) : Nat :=
  match hi with
  | none => 0
  | some m => cells.countP (fun c => match c with | some v => decide (m < v) | none => false)

/-- `validate_ranges(df, ranges)`: the guard `if not ranges` returns the empty
report for `None` and for an empty dict alike; otherwise each declared column
present in the frame contributes iff it has a violation. -/
def validate_ranges (df : DataFrame) (ranges : Option RangeSpec) : List (String × Nat × Nat) :=
  match ranges with
  | none => []
  | some [] => []
  | some rs =>
      rs.filterMap (fun r =>
        if r.1 ∈ dfColumns df then
          let cells := (getCol df r.1).getD []
          let below := countBelow cells r.2.1
          let above := countAbove cells r.2.2
          if 0 < below ∨ 0 < above then some (r.1, below, above) else none
        else none)

/-- The `issues` dictionary assembled by the Bronze `run_data_quality`:
each key is present iff its sub-report is non-empty (truthy). -/
structure QualityIssues where
  nulls : Option (List (String × ℚ))
  duplicates : Option DupReport
  range_violations : Option (List (String × Nat × Nat))
deriving DecidableEq, Repr

/-- `run_data_quality(df, cube_name)` of the Bronze stage: calls the three
validators with their default arguments (`threshold=0.0`, `subset=None`,
`ranges=None`) and assembles the issues dict; the report is advisory (logged)
and the frame passes through unmodified. -/
def run_data_quality (df : DataFrame) : QualityIssues :=
  let n := validate_nulls df 0
  let d := validate_duplicates df none
  let r := validate_ranges df none
  { nulls := if n.isEmpty then none else some n
    duplicates := d
    range_violations := if r.isEmpty then none else some r }

/-! ### transform/bronze_transform.py — partition assignment -/

/-- A pandas month Period. -/
structure Period where
  year : Nat
  month : Nat
deriving DecidableEq, Repr

/-- A calendar date (the `Date` column, `datetime.today()`). -/
structure PyDate where
  year : Nat
  month : Nat
  day : Nat
deriving DecidableEq, Repr

/-- `pd.to_datetime(col).dt.to_period(M)` on one date: month truncation. -/
def monthOf (d : PyDate) : Period := ⟨d.year, d.month⟩

/-- The fields of a Bronze frame relevant to partition assignment: row count,
the partition column when present, the `Date` column when present. -/
structure BronzeBatch where
  nrows : Nat
  partition_month : Option (List Period)
  dateCol : Option (List PyDate)
deriving DecidableEq, Repr

/-- A Bronze frame after `add_metadata_columns`. -/
structure MetaBatch where
  base : BronzeBatch
  cube_name : String
  bronze_extraction_time : PyDate
deriving DecidableEq, Repr

/-- `add_metadata_columns(df, cube_name)`: tags lineage, then assigns the
partition column if absent — from the `Date` column by month truncation, else
the month of `datetime.datetime.today()` broadcast to every row. -/
def add_metadata_columns (df : BronzeBatch) (cube : String) (today : PyDate) : MetaBatch :=
  let part : Option (List Period) :=
    match df.partition_month with
    | some p => some p
    | none =>
        match df.dateCol with
        | some dates => some (dates.map monthOf)
        | none => some (List.replicate df.nrows (monthOf today))
  { base := { df with partition_month := part }
    cube_name := cube
    bronze_extraction_time := today }

/-- The partition logic of `save_bronze` (src/bronze_transform.py): same two
first branches, but the fallback is the fixed period 2025-11. -/
def save_bronze (df : BronzeBatch) : BronzeBatch :=
  if df.partition_month.isSome then df
  else
    match df.dateCol with
    | some dates => { df with partition_month := some (dates.map monthOf) }
    | none => { df with partition_month := some (List.replicate df.nrows ⟨2025, 11⟩) }

/-! ### transform/gold_transform.py — enrichment -/

/-- `series.replace(0, 1)` on one cell: only an exact 0 becomes 1. -/
def replaceZeroOne (c : Cell) : Cell :=
  match c with
  | some q => if q = 0 then some 1 else some q
  | none => none

/-- Element-wise pandas float division; NaN propagates.  In `enrich` the
denominator is never `some 0` (the replace guard ran first), so the ℚ
zero-division convention is never exercised. -/
def pandasDiv (a b : Cell) : Cell :=
  match a, b with
  | some x, some y => some (x / y)
  | _, _ => none

/-- A Silver frame as read by the Gold stage: its numeric columns plus the
non-numeric columns relevant to enrichment. -/
structure GoldFrame where
  tab : DataFrame
  dateCol : Option (List PyDate)
  partition_month : Option (List Period)
deriving DecidableEq, Repr

/-- `enrich_with_dimensions(df)`: derives the month partition when missing and
a `Date` column exists, then adds `SalesPerUnit = Sales / Quantity.replace(0,1)`
when both columns are present. -/
def enrich_with_dimensions (g : GoldFrame) : GoldFrame :=
  let g1 :=
    if g.partition_month.isNone ∧ g.dateCol.isSome then
      { g with partition_month := some ((g.dateCol.getD []).map monthOf) }
    else g
  if "Sales" ∈ dfColumns g1.tab ∧ "Quantity" ∈ dfColumns g1.tab then
    let sales := (getCol g1.tab "Sales").getD []
    let qty := (getCol g1.tab "Quantity").getD []
    { g1 with tab := setCol g1.tab "SalesPerUnit" (List.zipWith pandasDiv sales (qty.map replaceZeroOne)) }
  else g1

/-! ### transform/silver_transform.py — SCD Type 2 merge

`SCD_TYPE2_COLUMNS = [Sales, Quantity]`, so the merge key (the entity
identity as implemented) is (cube_name, Sales, Quantity). -/

/-- An incoming Bronze row, restricted to the merge-key columns.  Any further
shared payload columns only add more suffixed pairs to the merge below. -/
structure SrcRow where
  cube_name : String
  Sales : ℚ
  Quantity : ℚ
deriving DecidableEq, Repr

/-- A Silver history row: the key columns plus the SCD columns.  Timestamps
are abstract ticks (ℕ); `EndDate = none` is `pd.NaT` (open row). -/
structure HistRow where
  cube_name : String
  Sales : ℚ
  Quantity : ℚ
  EffectiveDate : Nat
  EndDate : Option Nat
  CurrentFlag : Bool
deriving DecidableEq, Repr

/-- Tagging of an incoming row: `EffectiveDate = now`, `EndDate = NaT`,
`CurrentFlag = True`. -/
def tagRow (now : Nat) (r : SrcRow) : HistRow :=
  ⟨r.cube_name, r.Sales, r.Quantity, now, none, true⟩

/-- Equality on the merge key `[cube_name] + SCD_TYPE2_COLUMNS`. -/
def scdKeyMatch (r q : HistRow) : Bool :=
  r.cube_name == q.cube_name && r.Sales == q.Sales && r.Quantity == q.Quantity

/-- `apply_scd_type2(df, historical_df)`.  Returns (the `historical_df` object
after the in-place `.loc` mutations, the returned frame or the exception).

Tracing the source: the incoming frame is tagged; with a prior history,
`pd.merge(df, historical_df, on=key, how="left", indicator=True)` marks as
`left_only` exactly the incoming rows with no key match anywhere in the
history; each such row appears once.  If none exist the tagged incoming frame
itself is returned (the history is not part of the result).  Otherwise the
two `.loc` assignments set `CurrentFlag=False` and `EndDate=now` on every
history row whose `cube_name` occurs among the updated rows — matching on
`cube_name` alone, closed rows included — and then `updated[df.columns]`
raises `KeyError`: both frames carry the non-key columns `EffectiveDate`,
`EndDate`, `CurrentFlag`, which the merge renamed with `_x`/`_y` suffixes, so
the unsuffixed names are not in the merged index. -/
def apply_scd_type2 (df : List SrcRow) (historical : Option (List HistRow)) (now : Nat) :
    Option (List HistRow) × Except String (List HistRow) :=
  let tagged := df.map (tagRow now)
  match historical with
  | none => (none, Except.ok tagged)
  | some hist =>
      let updated := tagged.filter (fun r => !(hist.any (fun q => scdKeyMatch r q)))
      if updated.isEmpty then
        (some hist, Except.ok tagged)
      else
        let cubes := updated.map HistRow.cube_name
        let hist2 := hist.map (fun q =>
          if cubes.contains q.cube_name then { q with CurrentFlag := false, EndDate := some now } else q)
        (some hist2, Except.error "KeyError: EffectiveDate not in index")

/-! ### hashlib.md5 (RFC 1321), over ℕ with explicit mod 2^32 -/

/-- The MD5 word modulus 2^32. -/
def w32 : Nat := 4294967296

/-- Left rotation of a 32-bit word `x < 2^32`. -/
def rotl32 (x c : Nat) : Nat := ((x <<< c) % w32) + (x >>> (32 - c))

/-- Bitwise complement of a 32-bit word. -/
def not32 (x : Nat) : Nat := 4294967295 - x

/-- The MD5 round function for round `i` (F, G, H, I by quarter). -/
def md5F (i B C D : Nat) : Nat :=
  if i < 16 then (B &&& C) ||| (not32 B &&& D)
  else if i < 32 then (D &&& B) ||| (not32 D &&& C)
  else if i < 48 then B ^^^ C ^^^ D
  else C ^^^ (B ||| not32 D)

/-- The message-word index `g` used in round `i`. -/
def md5G (i : Nat) : Nat :=
  if i < 16 then i
  else if i < 32 then (5 * i + 1) % 16
  else if i < 48 then (3 * i + 5) % 16
  else (7 * i) % 16

/-- The 64 MD5 sine constants `K`. -/
def md5K : List Nat :=
  [0xd76aa478, 0xe8c7b756, 0x242070db, 0xc1bdceee,
   0xf57c0faf, 0x4787c62a, 0xa8304613, 0xfd469501,
   0x698098d8, 0x8b44f7af, 0xffff5bb1, 0x895cd7be,
   0x6b901122, 0xfd987193, 0xa679438e, 0x49b40821,
   0xf61e2562, 0xc040b340, 0x265e5a51, 0xe9b6c7aa,
   0xd62f105d, 0x02441453, 0xd8a1e681, 0xe7d3fbc8,
   0x21e1cde6, 0xc33707d6, 0xf4d50d87, 0x455a14ed,
   0xa9e3e905, 0xfcefa3f8, 0x676f02d9, 0x8d2a4c8a,
   0xfffa3942, 0x8771f681, 0x6d9d6122, 0xfde5380c,
   0xa4beea44, 0x4bdecfa9, 0xf6bb4b60, 0xbebfbc70,
   0x289b7ec6, 0xeaa127fa, 0xd4ef3085, 0x04881d05,
   0xd9d4d039, 0xe6db99e5, 0x1fa27cf8, 0xc4ac5665,
   0xf4292244, 0x432aff97, 0xab9423a7, 0xfc93a039,
   0x655b59c3, 0x8f0ccc92, 0xffeff47d, 0x85845dd1,
   0x6fa87e4f, 0xfe2ce6e0, 0xa3014314, 0x4e0811a1,
   0xf7537e82, 0xbd3af235, 0x2ad7d2bb, 0xeb86d391]

/-- The 64 MD5 per-round shift amounts `s`. -/
def md5S : List Nat :=
  [7, 12, 17, 22, 7, 12, 17, 22, 7, 12, 17, 22, 7, 12, 17, 22,
   5, 9, 14, 20, 5, 9, 14, 20, 5, 9, 14, 20, 5, 9, 14, 20,
   4, 11, 16, 23, 4, 11, 16, 23, 4, 11, 16, 23, 4, 11, 16, 23,
   6, 10, 15, 21, 6, 10, 15, 21, 6, 10, 15, 21, 6, 10, 15, 21]

/-- One MD5 round on the running state (A, B, C, D). -/
def md5Step (M : List Nat) (st : Nat × Nat × Nat × Nat) (i : Nat) : Nat × Nat × Nat × Nat :=
  let A := st.1
  let B := st.2.1
  let C := st.2.2.1
  let D := st.2.2.2
  let tmp := (A + md5F i B C D + md5K.getD i 0 + M.getD (md5G i) 0) % w32
  (D, (B + rotl32 tmp (md5S.getD i 0)) % w32, B, C)

/-- Processing of one 512-bit block given as 16 little-endian words. -/
def md5Block (st : Nat × Nat × Nat × Nat) (M : List Nat) : Nat × Nat × Nat × Nat :=
  let r := (List.range 64).foldl (md5Step M) st
  ((st.1 + r.1) % w32, (st.2.1 + r.2.1) % w32,
   (st.2.2.1 + r.2.2.1) % w32, (st.2.2.2 + r.2.2.2) % w32)

/-- The `len`-byte little-endian encoding of `n`. -/
def le8 (n len : Nat) : List Nat := (List.range len).map (fun i => (n >>> (8 * i)) % 256)

/-- MD5 padding: a 0x80 byte, zeros to 56 mod 64, the 64-bit bit length. -/
def md5Pad (msg : List Nat) : List Nat :=
  let L := msg.length
  let z := (120 - (L + 1) % 64) % 64
  msg ++ [0x80] ++ List.replicate z 0 ++ le8 ((8 * L) % (2 ^ 64)) 8

/-- Little-endian word `j` of a 64-byte block. -/
def leWord (b : List Nat) (j : Nat) : Nat :=
  b.getD (4 * j) 0 + 256 * b.getD (4 * j + 1) 0 +
    65536 * b.getD (4 * j + 2) 0 + 16777216 * b.getD (4 * j + 3) 0

/-- The 16 words of a block. -/
def md5Words (block : List Nat) : List Nat := (List.range 16).map (leWord block)

/-- Split into 64-byte chunks (fuel-indexed structural recursion). -/
def chunks64 : Nat → List Nat → List (List Nat)
  | 0, _ => []
  | _, [] => []
  | fuel + 1, l => l.take 64 :: chunks64 fuel (l.drop 64)

/-- A hex digit character (lowercase). -/
def hexChar (n : Nat) : Char :=
  if n < 10 then Char.ofNat (48 + n) else Char.ofNat (87 + n)

/-- Two hex characters of one byte. -/
def byteHex (b : Nat) : List Char := [hexChar (b / 16), hexChar (b % 16)]

/-- A 32-bit word rendered as 8 hex characters, bytes little-endian first. -/
def wordHexLE (x : Nat) : List Char := ((le8 x 4).map byteHex).flatten

/-- `hashlib.md5(bytes).hexdigest()`. -/
def md5Bytes (msg : List Nat) : String :=
  let blocks := chunks64 (msg.length + 72) (md5Pad msg)
  let st := blocks.foldl (fun st blk => md5Block st (md5Words blk))
    (0x67452301, 0xefcdab89, 0x98badcfe, 0x10325476)
  String.mk (wordHexLE st.1 ++ wordHexLE st.2.1 ++ wordHexLE st.2.2.1 ++ wordHexLE st.2.2.2)

/-- UTF-8 encoding of one character (`str.encode()` is UTF-8). -/
def utf8Char (c : Char) : List Nat :=
  let n := c.toNat
  if n < 128 then [n]
  else if n < 2048 then [192 + n / 64, 128 + n % 64]
  else if n < 65536 then [224 + n / 4096, 128 + (n / 64) % 64, 128 + n % 64]
  else [240 + n / 262144, 128 + (n / 4096) % 64, 128 + (n / 64) % 64, 128 + n % 64]

/-- `s.encode()`. -/
def pyEncode (s : String) : List Nat := (s.data.map utf8Char).flatten

/-- Python `"_".join([str(a) for a in args])` for string-valued arguments
(`str` on a string is the identity). -/
def pyStrJoin (args : List String) : String := String.intercalate "_" args

/-- `generate_surrogate_key(*args)`: the MD5 hex digest of the joined
canonical string form of the arguments. -/
def generate_surrogate_key (args : List String) : String :=
  md5Bytes (pyEncode (pyStrJoin args))

/-! ### Observables used by the statements -/

/-- The open rows (`CurrentFlag = true`, `EndDate = null`) of a history for
one entity identity (cube identifier, tracked-attribute tuple). -/
def openRowsFor (l : List HistRow) (cube : String) (s q : ℚ) : List HistRow :=
  l.filter (fun r =>
    r.CurrentFlag && r.EndDate.isNone && r.cube_name == cube && r.Sales == s && r.Quantity == q)

/-- The last `min (i+1) w` values among the first `i+1` entries of a column:
the window a min-periods-1 rolling mean of width `w` sees at position `i`. -/
def windowSlice (cells : List ℚ) (w i : Nat) : List ℚ :=
  (cells.take (i + 1)).drop (i + 1 - w)

end ETL

open ETL

/-! ## Helper lemmas -/

theorem lookup_mem {β : Type} {a : String} {b : β} {l : List (String × β)}
    (h : List.lookup a l = some b) : (a, b) ∈ l := by
  induction l with
  | nil => simp [List.lookup] at h
  | cons p t ih =>
      obtain ⟨x, y⟩ := p
      rw [List.lookup] at h
      by_cases hc : (a == x) = true
      · have ha : a = x := beq_iff_eq.mp hc
        subst ha
        simp [hc] at h
        rw [← h]
        exact List.mem_cons_self _ _
      · simp only [Bool.not_eq_true] at hc
        simp [hc] at h
        exact List.mem_cons_of_mem _ (ih h)

theorem getCol_mem {df : DataFrame} {c : String} {cells : List Cell}
    (h : getCol df c = some cells) : (c, cells) ∈ df := lookup_mem h

theorem mem_dfColumns_of_getCol {df : DataFrame} {c : String} {cells : List Cell}
    (h : getCol df c = some cells) : c ∈ dfColumns df :=
  List.mem_map.mpr ⟨(c, cells), getCol_mem h, rfl⟩

theorem getCol_isSome_of_mem {df : DataFrame} {c : String}
    (h : c ∈ dfColumns df) : ∃ cells, getCol df c = some cells := by
  induction df with
  | nil => simp [dfColumns] at h
  | cons p t ih =>
      by_cases hc : c = p.1
      · exact ⟨p.2, by simp [getCol, List.lookup, hc]⟩
      · have ht : c ∈ dfColumns t := by
          rcases List.mem_map.mp h with ⟨q, hq, hqc⟩
          rcases List.mem_cons.mp hq with h1 | h2
          · exact absurd (hqc.symm.trans (congrArg Prod.fst h1)) hc
          · exact List.mem_map.mpr ⟨q, h2, hqc⟩
        rcases ih ht with ⟨cells, hcells⟩
        refine ⟨cells, ?_⟩
        simpa [getCol, List.lookup, beq_eq_false_iff_ne.mpr hc] using hcells

theorem dfWf_length {df : DataFrame} (hw : dfWf df = true) {c : String} {cells : List Cell}
    (h : (c, cells) ∈ df) : cells.length = dfLen df := by
  have := List.all_eq_true.mp hw _ h
  simpa using this

theorem cumsumAux_length (acc : ℚ) (l : List Cell) : (cumsumAux acc l).length = l.length := by
  induction l generalizing acc with
  | nil => rfl
  | cons c rest ih => cases c <;> simp [cumsumAux, ih]

theorem rollingMeanAux_length (w : Nat) (seen l : List Cell) :
    (rollingMeanAux w seen l).length = l.length := by
  induction l generalizing seen with
  | nil => rfl
  | cons c rest ih => simp [rollingMeanAux, ih]

theorem ilocLast_ok {l : List Cell} (h : l ≠ []) : ∃ c, ilocLast l = Except.ok c := by
  cases l with
  | nil => exact absurd rfl h
  | cons c rest => exact ⟨_, rfl⟩

theorem seriesVals_map_some (l : List ℚ) : seriesVals (l.map some) = l := by
  simp [seriesVals]

theorem lookup_replace (df : DataFrame) (c : String) (cells : List Cell) :
    (df.map (fun p => if p.1 = c then (p.1, cells) else p)).lookup c =
      if (df.lookup c).isSome then some cells else none := by
  induction df with
  | nil => simp [List.lookup]
  | cons p t ih =>
      obtain ⟨x, y⟩ := p
      simp only [List.map_cons]
      by_cases hc : x = c
      · subst hc
        rw [show (if (x, y).1 = x then ((x, y).1, cells) else (x, y)) = (x, cells) from if_pos rfl]
        simp [List.lookup]
      · have hcc : (c == x) = false := beq_eq_false_iff_ne.mpr (fun h => hc h.symm)
        rw [show (if (x, y).1 = c then ((x, y).1, cells) else (x, y)) = (x, y) from if_neg hc]
        rw [List.lookup, List.lookup, hcc]
        simpa using ih

theorem lookup_append_self (df : DataFrame) (c : String) (cells : List Cell)
    (h : (df.lookup c).isSome = false) :
    (df ++ [(c, cells)]).lookup c = some cells := by
  induction df with
  | nil => simp [List.lookup]
  | cons p t ih =>
      obtain ⟨x, y⟩ := p
      by_cases hc : c = x
      · exfalso
        subst hc
        simp [List.lookup] at h
      · have hcc : (c == x) = false := beq_eq_false_iff_ne.mpr hc
        simp only [List.lookup, hcc] at h
        simpa [List.lookup, hcc] using ih h

theorem rollingMeanAux_getD (w : Nat) (hw : 1 ≤ w) (l : List ℚ) :
    ∀ (pre : List ℚ) (i : Nat), i < l.length →
      (rollingMeanAux w (pre.map some) (l.map some)).getD i none =
        some ((((l.take (i + 1)).reverse ++ pre).take w).sum /
              (((l.take (i + 1)).reverse ++ pre).take w).length) := by
  induction l with
  | nil => intro pre i h; simp at h
  | cons c rest ih =>
      intro pre i h
      rw [List.map_cons, rollingMeanAux]
      have hseen : (some c :: pre.map some) = (c :: pre).map some := by
        rw [List.map_cons]
      have hvals : seriesVals ((some c :: pre.map some).take w) = (c :: pre).take w := by
        rw [hseen, ← List.map_take, seriesVals_map_some]
      obtain ⟨k, rfl⟩ : ∃ k, w = k + 1 := ⟨w - 1, by omega⟩
      have hne : ((c :: pre).take (k + 1)).isEmpty = false := by
        rw [List.take_succ_cons]
        rfl
      cases i with
      | zero =>
          simp only [List.getD_cons_zero, hvals, hne, Bool.false_eq_true, if_false]
          simp
      | succ j =>
          simp only [List.getD_cons_succ]
          rw [hseen, ih (c :: pre) j (by simpa using h)]
          have harr : (rest.take (j + 1)).reverse ++ (c :: pre) =
              (((c :: rest).take (j + 1 + 1)).reverse ++ pre) := by
            simp [List.take_succ_cons, List.reverse_cons, List.append_assoc]
          rw [harr]

theorem getCol_setCol_self (df : DataFrame) (c : String) (cells : List Cell) :
    getCol (setCol df c cells) c = some cells := by
  unfold getCol setCol
  by_cases h : (df.lookup c).isSome
  · rw [if_pos h, lookup_replace, if_pos h]
  · rw [if_neg h]
    exact lookup_append_self df c cells (by simp only [Bool.not_eq_true] at h; exact h)

/-! ## Claims -/

/-- Claim C1: the spec invariant — after `apply_scd_type2`, every entity
identity has at most one row with `CurrentFlag = true` and `EndDate = null`
and contiguous, non-overlapping intervals — FAILS on the code: a first run
(no prior history) on a batch carrying the same entity identity
(cube, Sales, Quantity) twice tags both rows open, leaving two rows with
`CurrentFlag = true, EndDate = null` for that identity. -/
theorem apply_scd_type2_violates_open_row_invariant :
    (apply_scd_type2 [⟨"sales_cube", 100, 10⟩, ⟨"sales_cube", 100, 10⟩] none 0).2 =
      Except.ok [⟨"sales_cube", 100, 10, 0, none, true⟩, ⟨"sales_cube", 100, 10, 0, none, true⟩] ∧
    (openRowsFor [⟨"sales_cube", 100, 10, 0, none, true⟩, ⟨"sales_cube", 100, 10, 0, none, true⟩]
      "sales_cube" 100 10).length = 2 :=
  ⟨by rfl, by decide⟩

/-- Claim C2: "closed rows are never modified or deleted" FAILS on the code.
On a change in cube `c`, the two `.loc` writes close by `cube_name` alone:
the already-closed row (EndDate 1) has its `EndDate` overwritten to the new
run timestamp 2 in place, and the `updated[df.columns]` projection then
raises `KeyError` because the merge suffixed the shared SCD columns. -/
theorem apply_scd_type2_rewrites_closed_rows :
    apply_scd_type2 [⟨"c", 9, 9⟩]
        (some [⟨"c", 1, 1, 0, some 1, false⟩, ⟨"c", 5, 5, 1, none, true⟩]) 2 =
      (some [⟨"c", 1, 1, 0, some 2, false⟩, ⟨"c", 5, 5, 1, some 2, false⟩],
        Except.error "KeyError: EffectiveDate not in index") ∧
    (⟨"c", 1, 1, 0, some 2, false⟩ : HistRow) ≠ ⟨"c", 1, 1, 0, some 1, false⟩ :=
  ⟨by rfl, by decide⟩

/-- Claim C3: change suppression FAILS on the code.  Feeding a batch whose
single row matches the current history row exactly does not return the
history unchanged: the function returns the freshly-tagged incoming batch —
a row with the new `EffectiveDate` 5 that is not in the history — and the
prior history row is absent from the output. -/
theorem apply_scd_type2_unchanged_batch_not_suppressed :
    (apply_scd_type2 [⟨"c", 1, 1⟩] (some [⟨"c", 1, 1, 0, none, true⟩]) 5).2 =
      Except.ok [⟨"c", 1, 1, 5, none, true⟩] ∧
    (⟨"c", 1, 1, 5, none, true⟩ : HistRow) ∉ [(⟨"c", 1, 1, 0, none, true⟩ : HistRow)] ∧
    (⟨"c", 1, 1, 0, none, true⟩ : HistRow) ∉ [(⟨"c", 1, 1, 5, none, true⟩ : HistRow)] :=
  ⟨by rfl, by decide, by decide⟩

/-- Claim C4: surrogate keys are deterministic — `generate_surrogate_key` is
a pure function of the joined canonical string form of its arguments, so two
calls on equal canonical string inputs return equal keys, across runs and
across dimension tables. -/
theorem generate_surrogate_key_deterministic (a b : List String)
    (h : pyStrJoin a = pyStrJoin b) :
    generate_surrogate_key a = generate_surrogate_key b := by
  unfold generate_surrogate_key
  rw [h]

/-- Claim C4 witness: two concrete calls whose canonical string forms agree
produce the same key. -/
theorem generate_surrogate_key_deterministic_witness :
    generate_surrogate_key ["Region", "North"] = generate_surrogate_key ["Region_North"] :=
  generate_surrogate_key_deterministic ["Region", "North"] ["Region_North"] rfl

/-- Claim C10: `validate_ranges` with no `ranges` argument returns the empty
report for every frame, and the Bronze quality gate — which calls it with no
`ranges` argument — therefore never carries a `range_violations` key. -/
theorem validate_ranges_default_never_reports (df : DataFrame) :
    validate_ranges df none = [] ∧ (run_data_quality df).range_violations = none :=
  ⟨rfl, rfl⟩

/-- Claim C5 counterexample: the fallback partition of `add_metadata_columns`
is NOT a fixed default period — with no partition column and no date column,
two runs on the byte-identical input in different months assign different
partition values (the month of the run day). -/
theorem add_metadata_columns_fallback_run_dependent :
    (add_metadata_columns ⟨1, none, none⟩ "cube" ⟨2025, 10, 1⟩).base.partition_month ≠
      (add_metadata_columns ⟨1, none, none⟩ "cube" ⟨2025, 11, 7⟩).base.partition_month := by
  decide

/-- Claim C5 (amended): partition assignment is deterministic for identical
input when the partition column or a date column is present (existing column
kept; else month truncation of the date column); when neither is present,
`add_metadata_columns` falls back to the month of the current day — which is
run-dependent — while `save_bronze` falls back to the fixed period 2025-11. -/
theorem partition_assignment_deterministic_amended :
    (∀ (df : BronzeBatch) (cube : String) (t1 t2 : PyDate),
        df.partition_month.isSome ∨ df.dateCol.isSome →
        (add_metadata_columns df cube t1).base.partition_month =
          (add_metadata_columns df cube t2).base.partition_month) ∧
    (∀ df : BronzeBatch, df.partition_month = none → df.dateCol = none →
        (save_bronze df).partition_month = some (List.replicate df.nrows ⟨2025, 11⟩)) := by
  constructor
  · rintro ⟨n, pm, dc⟩ cube t1 t2 h
    cases pm with
    | some p => rfl
    | none =>
        cases dc with
        | some dates => rfl
        | none => simp at h
  · intro df h1 h2
    simp [save_bronze, h1, h2]

/-- Claim C5 witness: with a date column present, two runs on identical input
in different months assign identical partition values. -/
theorem partition_assignment_deterministic_witness :
    (add_metadata_columns ⟨2, none, some [⟨2025, 3, 14⟩, ⟨2025, 4, 2⟩]⟩ "c"
        ⟨2025, 10, 1⟩).base.partition_month =
      (add_metadata_columns ⟨2, none, some [⟨2025, 3, 14⟩, ⟨2025, 4, 2⟩]⟩ "c"
        ⟨2026, 1, 9⟩).base.partition_month :=
  partition_assignment_deterministic_amended.1 _ "c" _ _ (Or.inr (by decide))

/-- Claim C8: for every frame with `Sales` and `Quantity` columns,
`enrich_with_dimensions` computes `SalesPerUnit` as Sales divided by the
denominator with an exact 0 replaced by 1; the replace guard never leaves a
zero denominator, so the division is total — no error, no undefined value
from a zero `Quantity`. -/
theorem enrich_divide_by_zero_guard (g : GoldFrame)
    (hs : "Sales" ∈ dfColumns g.tab) (hq : "Quantity" ∈ dfColumns g.tab) :
    getCol (enrich_with_dimensions g).tab "SalesPerUnit" =
      some (List.zipWith pandasDiv ((getCol g.tab "Sales").getD [])
        (((getCol g.tab "Quantity").getD []).map replaceZeroOne)) ∧
    (∀ s : Cell, pandasDiv s (replaceZeroOne (some 0)) = pandasDiv s (some 1)) ∧
    (∀ q : Cell, replaceZeroOne q ≠ some 0) := by
  refine ⟨?_, ?_, ?_⟩
  · unfold enrich_with_dimensions
    by_cases hp : g.partition_month.isNone ∧ g.dateCol.isSome
    · simp only [if_pos hp]
      rw [if_pos ⟨hs, hq⟩]
      exact getCol_setCol_self _ _ _
    · simp only [if_neg hp]
      rw [if_pos ⟨hs, hq⟩]
      exact getCol_setCol_self _ _ _
  · intro s
    cases s <;> rfl
  · intro q h
    cases q with
    | none => simp [replaceZeroOne] at h
    | some x =>
        by_cases hx : x = 0
        · simp [replaceZeroOne, hx] at h
        · simp [replaceZeroOne, hx] at h

/-- Claim C8 witness: a concrete row with `Quantity = 0` gets
`SalesPerUnit = Sales / 1 = Sales`. -/
theorem enrich_divide_by_zero_guard_witness :
    getCol (enrich_with_dimensions ⟨[("Sales", [some 50]), ("Quantity", [some 0])], none, none⟩).tab
        "SalesPerUnit" =
      some (List.zipWith pandasDiv [some 50] ([some 0].map replaceZeroOne)) ∧
    List.zipWith pandasDiv [some 50] ([some 0].map replaceZeroOne) = [some 50] :=
  ⟨(enrich_divide_by_zero_guard _ (by decide) (by decide)).1, by
    simp [pandasDiv, replaceZeroOne]⟩

/-- Claim C7 counterexample: `validate_nulls` does not map a reported column
to its null ratio, but to the ratio rounded to 4 decimals — a 3-row column
with one null (ratio 1/3) is reported as 0.3333 ≠ 1/3. -/
theorem validate_nulls_reports_rounded_ratio :
    validate_nulls [("Sales", [some 1, none, some 2])] 0 = [("Sales", 3333 / 10000)] ∧
    (3333 / 10000 : ℚ) ≠ 1 / 3 := by
  constructor
  · simp [validate_nulls, nullFrac, seriesVals, round4, round_eq]
    norm_num
  · norm_num

/-- Claim C7 (amended): `validate_nulls` reports exactly the columns whose
null ratio strictly exceeds the threshold, mapping each to its null ratio
rounded to 4 decimal places; in particular the 4-row batch with
Sales = [100, null, 200, 300] yields Sales ↦ 0.25 at threshold 0.0 (where the
rounding is exact) and the empty report at threshold 0.5. -/
theorem validate_nulls_characterization :
    (∀ (df : DataFrame) (t : ℚ) (col : String) (r : ℚ),
        (col, r) ∈ validate_nulls df t ↔
          ∃ cells q, (col, cells) ∈ df ∧ nullFrac cells = some q ∧ t < q ∧ r = round4 q) ∧
    validate_nulls [("Sales", [some 100, none, some 200, some 300])] 0 = [("Sales", 1 / 4)] ∧
    validate_nulls [("Sales", [some 100, none, some 200, some 300])] (1 / 2) = [] := by
  refine ⟨?_, ?_, ?_⟩
  · intro df t col r
    unfold validate_nulls
    rw [List.mem_filterMap]
    constructor
    · rintro ⟨⟨name, cells⟩, hmem, hf⟩
      dsimp only at hf
      cases hnf : nullFrac cells with
      | none => rw [hnf] at hf; exact absurd hf (by simp)
      | some q =>
          rw [hnf] at hf
          dsimp only at hf
          by_cases ht : t < q
          · rw [if_pos ht] at hf
            injection hf with hf
            obtain ⟨h1, h2⟩ := Prod.mk.injEq _ _ _ _ ▸ hf
            exact ⟨cells, q, h1 ▸ hmem, hnf, ht, h2.symm⟩
          · rw [if_neg ht] at hf
            exact absurd hf (by simp)
    · rintro ⟨cells, q, hmem, hnf, ht, hr⟩
      exact ⟨(col, cells), hmem, by simp [hnf, if_pos ht, hr]⟩
  · simp [validate_nulls, nullFrac, round4, round_eq]
    norm_num
  · simp [validate_nulls, nullFrac, round4, round_eq]
    norm_num

/-- Claim C7 witness: the characterization instantiated on the spec example —
the Sales column with ratio 1/4 is reported at threshold 0. -/
theorem validate_nulls_characterization_witness :
    ("Sales", (1 : ℚ) / 4) ∈
      validate_nulls [("Sales", [some 100, none, some 200, some 300])] 0 :=
  (validate_nulls_characterization.1 _ 0 "Sales" (1 / 4)).mpr
    ⟨[some 100, none, some 200, some 300], 1 / 4, by simp,
      by norm_num [nullFrac, seriesVals], by norm_num, by norm_num [round4, round_eq]⟩

/-- Claim C9: on a fully non-null numeric column, `rolling_average` with
window `w ≥ 1` (min-periods-1) returns at each position `i` the mean of the
last `min (i+1) w` values, so early rows carry the partial average; window 3
over [10, 20, 30, 40] yields [10, 15, 20, 30]. -/
theorem rolling_average_min_periods_one :
    (∀ (df : DataFrame) (col : String) (w : Nat) (cells : List ℚ),
        1 ≤ w →
        getCol df col = some (cells.map some) →
        ∀ i, i < cells.length →
          (rolling_average df col w []).getD i none =
            some ((windowSlice cells w i).sum / (windowSlice cells w i).length) ∧
          (windowSlice cells w i).length = min (i + 1) w) ∧
    rolling_average [("Sales", [some 10, some 20, some 30, some 40])] "Sales" 3 [] =
      [some 10, some 15, some 20, some 30] := by
  constructor
  · intro df col w cells hw hcol i hi
    have hmem : col ∈ dfColumns df := mem_dfColumns_of_getCol hcol
    have hra : rolling_average df col w [] = rollingMean w (cells.map some) := by
      unfold rolling_average
      rw [if_neg (by simp [hmem])]
      simp [hcol]
    have htl : (cells.take (i + 1)).length = i + 1 := by
      rw [List.length_take]
      omega
    have hwin : ((cells.take (i + 1)).reverse ++ ([] : List ℚ)).take w =
        (windowSlice cells w i).reverse := by
      rw [List.append_nil, List.take_reverse, htl]
      rfl
    have hlen : (windowSlice cells w i).length = min (i + 1) w := by
      unfold windowSlice
      rw [List.length_drop, htl]
      omega
    refine ⟨?_, hlen⟩
    rw [hra]
    unfold rollingMean
    have hmain := rollingMeanAux_getD w hw cells [] i hi
    rw [hwin] at hmain
    simpa [List.sum_reverse] using hmain
  · norm_num [rolling_average, rollingMean, rollingMeanAux, seriesVals, dfColumns, getCol,
      List.lookup, List.filterMap_cons, List.filterMap_nil]

/-- Claim C9 witness: the general statement instantiated at position 1 of the
spec example — the partial window [10, 20] yields 15. -/
theorem rolling_average_min_periods_one_witness :
    (rolling_average [("Sales", [some 10, some 20, some 30, some 40])] "Sales" 3 []).getD 1 none =
      some ((windowSlice [10, 20, 30, 40] 3 1).sum / (windowSlice [10, 20, 30, 40] 3 1).length) ∧
    (windowSlice [10, 20, 30, 40] 3 1).length = min (1 + 1) 3 :=
  rolling_average_min_periods_one.1 _ "Sales" 3 [10, 20, 30, 40] (by decide) (by rfl) 1 (by decide)

/-- Helper: one `calculate_kpis` loop iteration succeeds when the frame has
rows or the column is absent. -/
theorem kpiBlock_ok (df : DataFrame) (col : String) (hw : dfWf df = true)
    (h : 0 < dfLen df ∨ col ∉ dfColumns df) : ∃ out, kpiBlock df col = Except.ok out := by
  by_cases hc : col ∈ dfColumns df
  · have hpos : 0 < dfLen df := h.resolve_right (fun hn => hn hc)
    obtain ⟨cells, hcells⟩ := getCol_isSome_of_mem hc
    have hlen : cells.length = dfLen df := dfWf_length hw (getCol_mem hcells)
    have hcum : cumulative df col [] = cumsum cells := by
      unfold cumulative
      rw [if_neg (by simpa using hc)]
      simp [hcells]
    have hne : cumulative df col [] ≠ [] := by
      rw [hcum]
      unfold cumsum
      intro hnil
      have hl := cumsumAux_length 0 cells
      rw [hnil] at hl
      simp at hl
      omega
    obtain ⟨c, hcl⟩ := ilocLast_ok hne
    exact ⟨_, by unfold kpiBlock; rw [if_pos hc, hcl]; rfl⟩
  · exact ⟨[], by unfold kpiBlock; rw [if_neg hc]; rfl⟩

/-- Helper: one rolling-KPI loop iteration succeeds under the same guard. -/
theorem rollBlock_ok (df : DataFrame) (col : String) (hw : dfWf df = true)
    (h : 0 < dfLen df ∨ col ∉ dfColumns df) : ∃ out, rollBlock df col = Except.ok out := by
  by_cases hc : col ∈ dfColumns df
  · have hpos : 0 < dfLen df := h.resolve_right (fun hn => hn hc)
    obtain ⟨cells, hcells⟩ := getCol_isSome_of_mem hc
    have hlen : cells.length = dfLen df := dfWf_length hw (getCol_mem hcells)
    have hne : rolling_average df col 3 [] ≠ [] := by
      have hroll : rolling_average df col 3 [] = rollingMean 3 cells := by
        unfold rolling_average
        rw [if_neg (by simpa using hc)]
        simp [hcells]
      rw [hroll]
      unfold rollingMean
      intro hnil
      have hl := rollingMeanAux_length 3 [] cells
      rw [hnil] at hl
      simp at hl
      omega
    obtain ⟨c, hcl⟩ := ilocLast_ok hne
    exact ⟨_, by unfold rollBlock; rw [if_pos hc, hcl]; rfl⟩
  · exact ⟨[], by unfold rollBlock; rw [if_neg hc]; rfl⟩

/-- Claim C6 counterexample: `calculate_kpis` DOES raise on an empty table
that declares a tracked column — `.iloc[-1]` on the empty cumulative series
is an `IndexError`. -/
theorem calculate_kpis_raises_on_empty_tracked :
    calculate_kpis [("Sales", [])] =
      Except.error "IndexError: single positional indexer is out-of-bounds" := by
  rfl

/-- Claim C6 (amended): `total`, `mean`, `maximum` and `minimum` return the
neutral default 0 when the column is absent or the table is empty, and
`calculate_kpis` returns without raising whenever the table is non-empty or
none of the tracked columns (Sales, Quantity, Stock) is present; on an empty
table with a tracked column it raises IndexError (see the counterexample). -/
theorem kpi_neutral_defaults_amended :
    (∀ (df : DataFrame) (col : String), dfWf df = true →
        col ∉ dfColumns df ∨ dfLen df = 0 →
        total df col = 0 ∧ mean df col = some 0 ∧
          maximum df col = some 0 ∧ minimum df col = some 0) ∧
    (∀ df : DataFrame, dfWf df = true →
        0 < dfLen df ∨
          ("Sales" ∉ dfColumns df ∧ "Quantity" ∉ dfColumns df ∧ "Stock" ∉ dfColumns df) →
        ∃ r, calculate_kpis df = Except.ok r) := by
  constructor
  · intro df col hw h
    rcases h with h | h
    · refine ⟨?_, ?_, ?_, ?_⟩ <;> simp [total, mean, maximum, minimum, h]
    · have htot : total df col = 0 := by
        unfold total
        by_cases hc : col ∈ dfColumns df
        · rw [if_pos hc]
          obtain ⟨cells, hcells⟩ := getCol_isSome_of_mem hc
          have hlen : cells.length = dfLen df := dfWf_length hw (getCol_mem hcells)
          have hnil : cells = [] := List.eq_nil_of_length_eq_zero (by omega)
          rw [hcells]
          simp [hnil, seriesSum, seriesVals]
        · rw [if_neg hc]
      refine ⟨htot, ?_, ?_, ?_⟩ <;> simp [mean, maximum, minimum, h]
  · intro df hw h
    have h1 : 0 < dfLen df ∨ "Sales" ∉ dfColumns df := by tauto
    have h2 : 0 < dfLen df ∨ "Quantity" ∉ dfColumns df := by tauto
    have h3 : 0 < dfLen df ∨ "Stock" ∉ dfColumns df := by tauto
    obtain ⟨a, ha⟩ := kpiBlock_ok df "Sales" hw h1
    obtain ⟨b, hb⟩ := kpiBlock_ok df "Quantity" hw h2
    obtain ⟨c, hc⟩ := kpiBlock_ok df "Stock" hw h3
    obtain ⟨d, hd⟩ := rollBlock_ok df "Sales" hw h1
    obtain ⟨e, he⟩ := rollBlock_ok df "Quantity" hw h2
    refine ⟨a ++ b ++ c ++ d ++ e, ?_⟩
    unfold calculate_kpis
    simp [ha, hb, hc, hd, he]
    rfl

/-- Claim C6 witness: on a one-row frame, the absent column `Stock` yields the
four neutral defaults, and `calculate_kpis` returns without raising. -/
theorem kpi_neutral_defaults_amended_witness :
    (total [("Sales", [some 5])] "Stock" = 0 ∧
      mean [("Sales", [some 5])] "Stock" = some 0 ∧
      maximum [("Sales", [some 5])] "Stock" = some 0 ∧
      minimum [("Sales", [some 5])] "Stock" = some 0) ∧
    ∃ r, calculate_kpis [("Sales", [some 5])] = Except.ok r :=
  ⟨kpi_neutral_defaults_amended.1 _ "Stock" (by decide) (Or.inl (by decide)),
    kpi_neutral_defaults_amended.2 _ (by decide) (Or.inl (by decide))⟩
